import Mathlib

/-!
Verification development for the mirascope repository: a shallow embedding of
the Mistral provider adapter (`mirascope/core/mistral/_utils/_setup_call.py`),
the Cohere streaming-chunk wrapper, the string prompt-template renderer, and
the Logfire observability handlers, together with theorems settling the
specification claims about them.
-/

/- ### Mistral SDK message model

Embeds the message types imported from `mistralai.models` that the adapter
manipulates: content is either a raw string or a list of content chunks, and
a message is one of `AssistantMessage`, `SystemMessage`, `ToolMessage`,
`UserMessage`. -/

/-- A content chunk of a Mistral SDK message: a `TextChunk` carrying text, or
some other chunk kind (image, reference, ...) that the adapter never builds. -/
inductive ContentChunk where
  | textChunk (text : String)
  | otherChunk (tag : String)
deriving DecidableEq, Repr

/-- The content of a Mistral SDK message: a plain string or a list of chunks
(the two `isinstance` cases the adapter distinguishes). -/
inductive MistralContent where
  | str (s : String)
  | chunks (l : List ContentChunk)
deriving DecidableEq, Repr

/-- The four Mistral SDK message types the adapter returns:
`AssistantMessage | SystemMessage | ToolMessage | UserMessage`. -/
inductive MistralMessage where
  | assistant (content : Option MistralContent)
  | system (content : MistralContent)
  | tool (content : MistralContent)
  | user (content : MistralContent)
deriving DecidableEq, Repr

/-- The `role` attribute of each Mistral SDK message type. -/
def MistralMessage.role : MistralMessage → String
  | .assistant _ => "assistant"
  | .system _ => "system"
  | .tool _ => "tool"
  | .user _ => "user"

/-- The provider-neutral message representation (`BaseMessageParam`): a role
and a textual content. -/
structure BaseMessageParam where
  role : String
  content : String
deriving DecidableEq, Repr

/-- An element of the message list handed to `convert_message_params`: either
still provider-neutral or already one of the vendor types. -/
inductive InputMessage where
  | base (m : BaseMessageParam)
  | vendor (m : MistralMessage)
deriving DecidableEq, Repr

/-- Modelled from the spec: `convert_message_params` (adapter helper not under
src/) converts the provider-neutral message/tool representation into the
vendor's schema; a `BaseMessageParam` is mapped to the vendor message type of
its role and an already-vendor message passes through unchanged. A role
outside the four vendor roles is mapped to a user message. -/
def convert_one_message : InputMessage → MistralMessage
  | .vendor m => m
  | .base m =>
    if m.role = "assistant" then .assistant (some (.str m.content))
    else if m.role = "system" then .system (.str m.content)
    else if m.role = "tool" then .tool (.str m.content)
    else .user (.str m.content)

/-- Modelled from the spec: `convert_message_params` applied to the whole
message list. -/
def convert_message_params (msgs : List InputMessage) : List MistralMessage :=
  msgs.map convert_one_message

/-- The `ResponseFormat` value of the Mistral SDK (only its `type` field is
used by the adapter). -/
structure ResponseFormat where
  type : String
deriving DecidableEq, Repr

/-- The `MistralCallKwargs` dictionary: each key the adapter reads or writes
is an optional field; `extra` carries any other entries of the base kwargs
returned by `_utils.setup_call`. A field that is `none` means the key is
absent from the dictionary. -/
structure MistralCallKwargs where
  response_format : Option ResponseFormat := none
  tools : Option (List String) := none
  tool_choice : Option String := none
  model : Option String := none
  messages : Option (List MistralMessage) := none
  extra : List (String × String) := []
deriving DecidableEq, Repr

/-- A Mistral client: the four chat methods the adapter wraps, identified by
name. -/
structure MistralClient where
  chatComplete : String
  chatStream : String
  chatCompleteAsync : String
  chatStreamAsync : String
deriving DecidableEq, Repr

/-- Modelled from the spec: the client built by
`Mistral(api_key=mistral.load_api_key())` when no client is passed. -/
def defaultMistralClient : MistralClient :=
  { chatComplete := "Mistral.chat.complete"
    chatStream := "Mistral.chat.stream"
    chatCompleteAsync := "Mistral.chat.complete_async"
    chatStreamAsync := "Mistral.chat.stream_async" }

/-- The create function returned by the adapter: the async wrapper
`get_async_create_fn(complete_async, stream_async)` or the sync wrapper
`get_create_fn(complete, stream)`. -/
inductive CreateOrStream where
  | asyncOf (complete_async stream_async : String)
  | syncOf (complete stream : String)
deriving DecidableEq, Repr

/-- The tuple returned by the Mistral `setup_call`. -/
structure MistralSetupResult where
  create_or_stream : CreateOrStream
  prompt_template : Option String
  messages : List MistralMessage
  tool_types : Option (List String)
  call_kwargs : MistralCallKwargs
deriving DecidableEq, Repr

/-- Python's `str.strip()`: leading and trailing whitespace removed. -/
def pyStrip (s : String) : String :=
  String.mk
    (((s.toList.dropWhile Char.isWhitespace).reverse.dropWhile Char.isWhitespace).reverse)

/-- `tool_types[0] if tool_types else None`: `None` or an empty list is falsy
in Python, otherwise the first element is taken. -/
def firstToolType : Option (List String) → Option String
  | some (t :: _) => some t
  | _ => none

/-- The json-mode merge on the last message: when its role is `user`, the
instruction text is appended to its content, as a `TextChunk` when the content
is a list and by string concatenation when it is a string. Other messages are
left unchanged (the adapter appends a fresh user message instead). -/
def appendJsonContent (m : MistralMessage) (jmc : String) : MistralMessage :=
  match m with
  | .user (.str s) => .user (.str (s ++ jmc))
  | .user (.chunks l) => .user (.chunks (l ++ [.textChunk jmc]))
  | m => m

/-- The Mistral `setup_call` (from
`src/mirascope/core/mistral/_utils/_setup_call.py`). The outputs of the
provider-neutral `_utils.setup_call` (prompt template, message list, tool
types, base call kwargs) and the `_utils.json_mode_content` helper, which are
not part of the sources under src/, are taken as arguments; `fnAsync` is the
value of `fn_is_async(fn)`. An `assert` failure or an out-of-range index
surfaces as `Except.error`. -/
def setup_call (model : String) (client : Option MistralClient) (fnAsync : Bool)
    (prompt_tmpl : Option String) (messages0 : List InputMessage)
    (tool_types : Option (List String)) (json_mode : Bool)
    (base_call_kwargs : MistralCallKwargs)
    (json_mode_content : Option String → String) (extract : Bool) :
    Except String MistralSetupResult :=
  let messages := convert_message_params messages0
  let step :
      Except String (MistralCallKwargs × List MistralMessage) :=
    if json_mode then
      let kw := { base_call_kwargs with response_format := some ⟨"json_object"⟩ }
      let jmc := json_mode_content (firstToolType tool_types)
      match messages.getLast? with
      | none => .error "IndexError: list index out of range"
      | some last =>
        let messages' :=
          if last.role = "user" then
            messages.dropLast ++ [appendJsonContent last jmc]
          else
            messages ++ [.user (.str (pyStrip jmc))]
        .ok ({ kw with tools := none }, messages')
    else if extract then
      match tool_types with
      | some (_ :: _) => .ok ({ base_call_kwargs with tool_choice := some "any" }, messages)
      | _ => .error "At least one tool must be provided for extraction."
    else
      .ok (base_call_kwargs, messages)
  match step with
  | .error e => .error e
  | .ok (kw, messages') =>
    let kw' := { kw with model := some model, messages := some messages' }
    let c := client.getD defaultMistralClient
    let create_or_stream :=
      if fnAsync then CreateOrStream.asyncOf c.chatCompleteAsync c.chatStreamAsync
      else CreateOrStream.syncOf c.chatComplete c.chatStream
    .ok { create_or_stream := create_or_stream
          prompt_template := prompt_tmpl
          messages := messages'
          tool_types := tool_types
          call_kwargs := kw' }

/-- A concrete `setup_call` run used to exercise the theorems on an explicit
input: sync function, one already-converted user message, no tools, no
json mode, no extraction. -/
def mistralResultEx : MistralSetupResult :=
  { create_or_stream := .syncOf "c" "s"
    prompt_template := none
    messages := [.user (.str "hi")]
    tool_types := none
    call_kwargs := { model := some "m", messages := some [.user (.str "hi")] } }

/-- The overall effect of the json-mode branch on a message list whose last
converted element is `m`: merge into `m` when it is a user message, otherwise
append a fresh user message with the stripped instruction text. -/
def mergedMessages (conv : List MistralMessage) (m : MistralMessage)
    (jmc : String) : List MistralMessage :=
  if m.role = "user" then conv ++ [appendJsonContent m jmc]
  else conv ++ [m, .user (.str (pyStrip jmc))]

/-- The create function chosen for a resolved client and async flag. -/
def chosenCreateFn (c : MistralClient) (fnAsync : Bool) : CreateOrStream :=
  if fnAsync then .asyncOf c.chatCompleteAsync c.chatStreamAsync
  else .syncOf c.chatComplete c.chatStream

/- ### Cohere streaming-chunk wrapper

The `CohereCallResponseChunk` implementation is not under src/ (only its test
is), so its properties are modelled from the spec's streaming-chunk-wrapping
sentence and exercised against the expectations of
`src/tests/core/cohere/test_call_response_chunk.py`. -/

/-- The `ApiMetaBilledUnits` type of the Cohere SDK. -/
structure ApiMetaBilledUnits where
  input_tokens : Option Nat
  output_tokens : Option Nat
deriving DecidableEq, Repr

/-- The `ApiMeta` type of the Cohere SDK. -/
structure ApiMeta where
  billed_units : Option ApiMetaBilledUnits
deriving DecidableEq, Repr

/-- The `NonStreamedChatResponse` carried by a stream-end chunk. -/
structure NonStreamedChatResponse where
  generation_id : Option String
  text : String
  meta : Option ApiMeta
deriving DecidableEq, Repr

/-- The Cohere streamed chat response variants the wrapper distinguishes. -/
inductive StreamedChatResponse where
  | streamStart (generation_id : Option String)
  | textGeneration (text : String)
  | streamEnd (finish_reason : String) (response : NonStreamedChatResponse)
deriving DecidableEq, Repr

/-- The `CohereCallResponseChunk` wrapper around a raw stream chunk. -/
structure CohereCallResponseChunk where
  chunk : StreamedChatResponse
deriving DecidableEq, Repr

/-- Modelled from the spec: the `content` property of the chunk wrapper — the
chunk's text for a text-generation chunk, else the empty string. -/
def CohereCallResponseChunk.content : CohereCallResponseChunk → String
  | ⟨.textGeneration t⟩ => t
  | _ => ""

/-- Modelled from the spec: the `finish_reasons` property — the one-element
list with the finish reason on stream end, else `None`. -/
def CohereCallResponseChunk.finish_reasons :
    CohereCallResponseChunk → Option (List String)
  | ⟨.streamEnd fr _⟩ => some [fr]
  | _ => none

/-- Modelled from the spec: the `model` property — Cohere stream chunks carry
no model, so it is always `None`. -/
def CohereCallResponseChunk.model : CohereCallResponseChunk → Option String :=
  fun _ => none

/-- Modelled from the spec: the `id` property — the generation id on stream
start, the response's generation id on stream end, else `None`. -/
def CohereCallResponseChunk.id : CohereCallResponseChunk → Option String
  | ⟨.streamStart gid⟩ => gid
  | ⟨.streamEnd _ resp⟩ => resp.generation_id
  | _ => none

/-- Modelled from the spec: the `usage` property — the response's billed
units on stream end, else `None`. -/
def CohereCallResponseChunk.usage :
    CohereCallResponseChunk → Option ApiMetaBilledUnits
  | ⟨.streamEnd _ resp⟩ => resp.meta.bind (fun m => m.billed_units)
  | _ => none

/-- Modelled from the spec: the `input_tokens` property — the billed units'
input token count when usage is present. -/
def CohereCallResponseChunk.input_tokens (c : CohereCallResponseChunk) :
    Option Nat :=
  c.usage.bind (fun u => u.input_tokens)

/-- Modelled from the spec: the `output_tokens` property — the billed units'
output token count when usage is present. -/
def CohereCallResponseChunk.output_tokens (c : CohereCallResponseChunk) :
    Option Nat :=
  c.usage.bind (fun u => u.output_tokens)

/- ### String prompt templates

The `@prompt_template` decorator implementation is not under src/ (only
example usages are), so the renderer is modelled from the spec's
prompt-templating sentence and the examples under
`src/examples/learn/prompts/`. -/

/-- A Python value a template placeholder can refer to: a string, or an
object with named attributes (as in `{book.title}`). -/
inductive PyValue where
  | str (s : String)
  | obj (attrs : List (String × PyValue))
deriving Repr

/-- `str(value)` for template interpolation: a string is itself; an object
renders via its default representation. -/
def pyStr : PyValue → String
  | .str s => s
  | .obj _ => "<object>"

/-- `getattr`: look up a named attribute of an object. -/
def lookupAttr : List (String × PyValue) → String → Option PyValue
  | [], _ => none
  | (k, v) :: rest, a => if k = a then some v else lookupAttr rest a

/-- Follow a dotted attribute path from a value. -/
def resolvePath : PyValue → List String → Option PyValue
  | v, [] => some v
  | .obj attrs, a :: rest => (lookupAttr attrs a).bind (fun v => resolvePath v rest)
  | .str _, _ :: _ => none

/-- Split a placeholder name at the dots: `book.title` becomes
`["book", "title"]`. -/
def splitDots (acc : List Char) : List Char → List String
  | [] => [String.mk acc.reverse]
  | c :: rest =>
    if c = '.' then String.mk acc.reverse :: splitDots [] rest
    else splitDots (c :: acc) rest

/-- Modelled from the spec: resolve one placeholder against the decorated
function's arguments — the part before the first dot names the argument and
the remaining parts name attributes, as in `{book.title}`. -/
def envLookup (env : String → Option PyValue) (ph : String) : Option String :=
  match splitDots [] ph.toList with
  | [] => none
  | base :: path => (env base).bind (fun v => (resolvePath v path).map pyStr)

/-- Modelled from the spec: the template renderer — characters are copied
verbatim, and a `{name}` placeholder is replaced by the looked-up value; an
unterminated or unresolvable placeholder is an error. The first argument is
`true` while scanning inside a placeholder, with the accumulated name
characters in reverse order. -/
def renderAux (lk : String → Option String) :
    Bool → List Char → List Char → Option String
  | false, _, [] => some ""
  | true, _, [] => none
  | false, _, c :: rest =>
    if c = '{' then renderAux lk true [] rest
    else (renderAux lk false [] rest).map (fun t => String.mk [c] ++ t)
  | true, acc, c :: rest =>
    if c = '}' then
      (lk (String.mk acc.reverse)).bind
        (fun v => (renderAux lk false [] rest).map (fun t => v ++ t))
    else renderAux lk true (c :: acc) rest

/-- Modelled from the spec: render a whole template string. -/
def renderTemplate (tmpl : String) (lk : String → Option String) :
    Option String :=
  renderAux lk false [] tmpl.toList

/-- Modelled from the spec: a function decorated with
`@prompt_template(tmpl)` called with arguments `env` returns the one-element
list of a user `BaseMessageParam` whose content is the rendered template. -/
def prompt_template (tmpl : String) (env : String → Option PyValue) :
    Option (List BaseMessageParam) :=
  (renderTemplate tmpl (envLookup env)).map
    (fun s => [{ role := "user", content := s }])

/-- A template described as alternating literal and placeholder segments. -/
inductive TmplSeg where
  | lit (s : List Char)
  | ph (name : List Char)

/-- The raw template text a segment list denotes. -/
def segChars : List TmplSeg → List Char
  | [] => []
  | .lit s :: rest => s ++ segChars rest
  | .ph n :: rest => '{' :: (n ++ ('}' :: segChars rest))

/-- The substitution the claim describes: literals kept, each placeholder
replaced by its looked-up value. -/
def substSegs (lk : String → Option String) : List TmplSeg → Option String
  | [] => some ""
  | .lit s :: rest => (substSegs lk rest).map (fun t => String.mk s ++ t)
  | .ph n :: rest =>
    (lk (String.mk n)).bind
      (fun v => (substSegs lk rest).map (fun t => v ++ t))

/-- A well-formed segment holds no brace characters. -/
def segWF : TmplSeg → Bool
  | .lit s => s.all (fun c => c ≠ '{' && c ≠ '}')
  | .ph n => n.all (fun c => c ≠ '{' && c ≠ '}')

/-- The template segments of the book-recommendation example. -/
def bookSegs : List TmplSeg :=
  [.lit "I read ".toList, .ph "book.title".toList, .lit " by ".toList,
   .ph "book.author".toList, .lit ". What should I read next?".toList]

/-- The argument assignment of the book-recommendation example. -/
def bookEnv : String → Option PyValue := fun n =>
  if n = "book" then
    some (.obj [("title", .str "The Name of the Wind"),
                ("author", .str "Patrick Rothfuss")])
  else none

/- ### Logfire handlers

The `mirascope.integrations.logfire._utils` module is not under src/ (only
its test is), so the handlers are modelled from the spec's observability
sentence and the expectations of
`src/tests/integrations/logfire/test_utils.py`. A handler's observable
effect is the list of payloads it passes to `span.set_attributes`; a `None`
span is `none`. -/

/-- A tool call recorded in span data. -/
structure ToolCallData where
  name : String
  arguments : List (String × String)
deriving DecidableEq, Repr

/-- The call-response object the handlers observe: each attribute the span
data records, plus the output attributes and the response's tools. -/
structure LogfireCallResponse where
  call_params : String
  call_kwargs : String
  model : String
  provider : String
  prompt_template : String
  fn_args : String
  messages : String
  response : String
  cost : String
  input_tokens : String
  output_tokens : String
  content : String
  tools : Option (List ToolCallData)
deriving DecidableEq, Repr

/-- The `output` entry of span data: the base output attributes, optionally
augmented with tool calls or a response model. -/
structure OutputData where
  base : List (String × String)
  tool_calls : Option (List ToolCallData) := none
  response_model : Option String := none
deriving DecidableEq, Repr

/-- The attribute dictionary passed to `span.set_attributes`. -/
structure SpanData where
  isAsync : Bool
  call_params : String
  call_kwargs : String
  model : String
  provider : String
  prompt_template : String
  template_variables : String
  messages : String
  response_data : Option String
  output : OutputData
deriving DecidableEq, Repr

/-- Modelled from the spec: `get_output` — cost, input tokens, output tokens
and content of a result. -/
def get_output (r : LogfireCallResponse) : List (String × String) :=
  [("cost", r.cost), ("input_tokens", r.input_tokens),
   ("output_tokens", r.output_tokens), ("content", r.content)]

/-- Modelled from the spec: `get_tool_calls` — the tool calls of the
response's tools, `None` when it has none. -/
def get_tool_calls (r : LogfireCallResponse) : Option (List ToolCallData) :=
  r.tools

/-- Modelled from the spec: `get_call_response_span_data` — records async as
False together with call_params, call_kwargs, model, provider,
prompt_template, the template variables, messages, the raw response data and
the base output. -/
def get_call_response_span_data (r : LogfireCallResponse) : SpanData :=
  { isAsync := false
    call_params := r.call_params
    call_kwargs := r.call_kwargs
    model := r.model
    provider := r.provider
    prompt_template := r.prompt_template
    template_variables := r.fn_args
    messages := r.messages
    response_data := some r.response
    output := { base := get_output r } }

/-- The stream object the stream handlers observe. -/
structure LogfireStream where
  call_params : String
  call_kwargs : String
  model : String
  provider : String
  prompt_template : String
  fn_args : String
  user_message_param : String
  message_param_content : String
  cost : String
  input_tokens : String
  output_tokens : String
deriving DecidableEq, Repr

/-- Modelled from the spec: `get_stream_span_data` — records async as False,
the user message, the call attributes, and an output holding cost, token
counts and the final message content. -/
def get_stream_span_data (s : LogfireStream) : SpanData :=
  { isAsync := false
    call_params := s.call_params
    call_kwargs := s.call_kwargs
    model := s.model
    provider := s.provider
    prompt_template := s.prompt_template
    template_variables := s.fn_args
    messages := s.user_message_param
    response_data := none
    output := { base := [("cost", s.cost), ("input_tokens", s.input_tokens),
                         ("output_tokens", s.output_tokens),
                         ("content", s.message_param_content)] } }

/-- Modelled from the spec: `handle_call_response` — with a `None` span it
returns without touching the span; otherwise it calls `set_attributes` once
with the call-response span data, the output augmented by the response's tool
calls, and async recorded as False. -/
def handle_call_response (r : LogfireCallResponse) (span : Option Unit) :
    List SpanData :=
  match span with
  | none => []
  | some _ =>
    let d := get_call_response_span_data r
    [({ d with
          output := { d.output with tool_calls := get_tool_calls r },
          isAsync := false } : SpanData)]

/-- Modelled from the spec: `handle_call_response_async` — as the sync
handler but recording async as True. -/
def handle_call_response_async (r : LogfireCallResponse)
    (span : Option Unit) : List SpanData :=
  match span with
  | none => []
  | some _ =>
    let d := get_call_response_span_data r
    [({ d with
          output := { d.output with tool_calls := get_tool_calls r },
          isAsync := true } : SpanData)]

/-- Modelled from the spec: `handle_stream` — with a `None` span it returns
without touching the span; otherwise it calls `set_attributes` once with the
stream span data and async recorded as False. -/
def handle_stream (s : LogfireStream) (span : Option Unit) : List SpanData :=
  match span with
  | none => []
  | some _ => [{ get_stream_span_data s with isAsync := false }]

/-- Modelled from the spec: `handle_stream_async` — as the sync handler but
recording async as True. -/
def handle_stream_async (s : LogfireStream) (span : Option Unit) :
    List SpanData :=
  match span with
  | none => []
  | some _ => [{ get_stream_span_data s with isAsync := true }]

/-- The argument of `handle_base_model`: a constructed response model backed
by a call response, or a structured stream. -/
inductive LogfireBaseModelResult where
  | respModel (modelRepr : String) (response : LogfireCallResponse)
  | structuredStream (modelRepr : String) (stream : LogfireStream)
deriving DecidableEq, Repr

/-- Modelled from the spec: `handle_base_model` — with a `None` span it
returns without touching the span; otherwise it calls `set_attributes` once
with the backing response's (or stream's) span data, the output augmented by
the response model, and async recorded as False. -/
def handle_base_model (r : LogfireBaseModelResult) (span : Option Unit) :
    List SpanData :=
  match span, r with
  | none, _ => []
  | some _, .respModel m resp =>
    let d := get_call_response_span_data resp
    [({ d with
          output := { d.output with response_model := some m },
          isAsync := false } : SpanData)]
  | some _, .structuredStream m s =>
    let d := get_stream_span_data s
    [({ d with
          output := { d.output with response_model := some m },
          isAsync := false } : SpanData)]

/-- Modelled from the spec: `handle_base_model_async` — as the sync handler
but recording async as True. -/
def handle_base_model_async (r : LogfireBaseModelResult) (span : Option Unit) :
    List SpanData :=
  match span, r with
  | none, _ => []
  | some _, .respModel m resp =>
    let d := get_call_response_span_data resp
    [({ d with
          output := { d.output with response_model := some m },
          isAsync := true } : SpanData)]
  | some _, .structuredStream m s =>
    let d := get_stream_span_data s
    [({ d with
          output := { d.output with response_model := some m },
          isAsync := true } : SpanData)]

/- ### Theorems about the Mistral adapter -/

theorem convert_concat (ms0 : List InputMessage) (m0 : InputMessage) :
    convert_message_params (ms0 ++ [m0]) =
      convert_message_params ms0 ++ [convert_one_message m0] := by
  simp [convert_message_params]

theorem setup_call_json_mode_eq (model : String)
    (client : Option MistralClient) (fnAsync : Bool) (pt : Option String)
    (ms0 : List InputMessage) (m0 : InputMessage)
    (tool_types : Option (List String)) (base : MistralCallKwargs)
    (jmc_fn : Option String → String) (extract : Bool) :
    setup_call model client fnAsync pt (ms0 ++ [m0]) tool_types true base
        jmc_fn extract =
      .ok { create_or_stream := chosenCreateFn (client.getD defaultMistralClient) fnAsync
            prompt_template := pt
            messages := mergedMessages (convert_message_params ms0)
              (convert_one_message m0) (jmc_fn (firstToolType tool_types))
            tool_types := tool_types
            call_kwargs :=
              { base with
                response_format := some ⟨"json_object"⟩
                tools := none
                model := some model
                messages := some (mergedMessages (convert_message_params ms0)
                  (convert_one_message m0) (jmc_fn (firstToolType tool_types))) } } := by
  simp [setup_call, convert_concat, mergedMessages, chosenCreateFn,
    List.getLast?_concat, List.dropLast_concat]

/-- Claim C1: with `json_mode=True`, `setup_call` returns call_kwargs mapping
`response_format` to a json_object `ResponseFormat` with no `tools` key, and
merges the json-mode instruction into the final message: appended to the last
converted message's content when that message has role user (as a `TextChunk`
for list content, by concatenation for string content), and otherwise a fresh
`UserMessage` with the stripped instruction text is appended. -/
theorem mistral_setup_call_json_mode (model : String)
    (client : Option MistralClient) (fnAsync : Bool) (pt : Option String)
    (ms0 : List InputMessage) (m0 : InputMessage)
    (tool_types : Option (List String)) (base : MistralCallKwargs)
    (jmc_fn : Option String → String) (extract : Bool) :
    ∃ r, setup_call model client fnAsync pt (ms0 ++ [m0]) tool_types true base
        jmc_fn extract = .ok r ∧
      r.call_kwargs.response_format = some ⟨"json_object"⟩ ∧
      r.call_kwargs.tools = none ∧
      r.messages =
        (match convert_one_message m0 with
         | .user (.str s) =>
             convert_message_params ms0 ++
               [.user (.str (s ++ jmc_fn (firstToolType tool_types)))]
         | .user (.chunks l) =>
             convert_message_params ms0 ++
               [.user (.chunks
                 (l ++ [.textChunk (jmc_fn (firstToolType tool_types))]))]
         | m =>
             convert_message_params ms0 ++
               [m, .user (.str (pyStrip (jmc_fn (firstToolType tool_types))))]) := by
  refine ⟨_, setup_call_json_mode_eq model client fnAsync pt ms0 m0 tool_types
    base jmc_fn extract, rfl, rfl, ?_⟩
  cases hm : convert_one_message m0 with
  | user c =>
    cases c with
    | str s => simp [mergedMessages, MistralMessage.role, appendJsonContent]
    | chunks l => simp [mergedMessages, MistralMessage.role, appendJsonContent]
  | assistant c => simp [mergedMessages, MistralMessage.role, appendJsonContent]
  | system c => simp [mergedMessages, MistralMessage.role, appendJsonContent]
  | tool c => simp [mergedMessages, MistralMessage.role, appendJsonContent]

theorem setup_call_extract_eq (model : String) (client : Option MistralClient)
    (fnAsync : Bool) (pt : Option String) (ms0 : List InputMessage)
    (base : MistralCallKwargs) (jmc_fn : Option String → String)
    (t : String) (ts : List String) :
    setup_call model client fnAsync pt ms0 (some (t :: ts)) false base
        jmc_fn true =
      .ok { create_or_stream := chosenCreateFn (client.getD defaultMistralClient) fnAsync
            prompt_template := pt
            messages := convert_message_params ms0
            tool_types := some (t :: ts)
            call_kwargs :=
              { base with
                tool_choice := some "any"
                model := some model
                messages := some (convert_message_params ms0) } } := by
  simp [setup_call, chosenCreateFn]

/-- Claim C2: with `extract=True` and `json_mode=False`, `setup_call` raises
an `AssertionError` if and only if the tool-type list is `None` or empty, and
with a non-empty tool-type list the returned call_kwargs map `tool_choice`
to `"any"`. -/
theorem mistral_setup_call_extract (model : String)
    (client : Option MistralClient) (fnAsync : Bool) (pt : Option String)
    (ms0 : List InputMessage) (tool_types : Option (List String))
    (base : MistralCallKwargs) (jmc_fn : Option String → String) :
    (setup_call model client fnAsync pt ms0 tool_types false base jmc_fn true =
        .error "At least one tool must be provided for extraction." ↔
      tool_types = none ∨ tool_types = some []) ∧
    (∀ t ts, ∃ r,
      setup_call model client fnAsync pt ms0 (some (t :: ts)) false base
          jmc_fn true = .ok r ∧
        r.call_kwargs.tool_choice = some "any") := by
  constructor
  · cases tool_types with
    | none => simp [setup_call]
    | some l =>
      cases l with
      | nil => simp [setup_call]
      | cons t ts =>
        rw [setup_call_extract_eq]
        simp
  · intro t ts
    exact ⟨_, setup_call_extract_eq model client fnAsync pt ms0 base jmc_fn t ts,
      rfl⟩

/-- Claim C3: the create function returned by `setup_call` is the async
wrapper over `client.chat.complete_async` and `client.chat.stream_async`
exactly when `fn_is_async(fn)` holds, and otherwise the sync wrapper over
`client.chat.complete` and `client.chat.stream`. -/
theorem mistral_setup_call_create_fn (model : String)
    (client : Option MistralClient) (fnAsync : Bool) (pt : Option String)
    (ms0 : List InputMessage) (tool_types : Option (List String))
    (json_mode : Bool) (base : MistralCallKwargs)
    (jmc_fn : Option String → String) (extract : Bool)
    (r : MistralSetupResult)
    (h : setup_call model client fnAsync pt ms0 tool_types json_mode base
      jmc_fn extract = .ok r) :
    r.create_or_stream =
      (if fnAsync then
        CreateOrStream.asyncOf (client.getD defaultMistralClient).chatCompleteAsync
          (client.getD defaultMistralClient).chatStreamAsync
      else
        CreateOrStream.syncOf (client.getD defaultMistralClient).chatComplete
          (client.getD defaultMistralClient).chatStream) ∧
    (r.create_or_stream =
        CreateOrStream.asyncOf (client.getD defaultMistralClient).chatCompleteAsync
          (client.getD defaultMistralClient).chatStreamAsync ↔
      fnAsync = true) := by
  simp only [setup_call] at h
  split at h
  · exact absurd h (by simp)
  · cases h
    cases fnAsync <;> simp

/-- Claim C6: every element of the message list returned by `setup_call` is
one of the Mistral SDK message types `AssistantMessage`, `SystemMessage`,
`ToolMessage`, `UserMessage`: conversion to the vendor schema is complete. -/
theorem mistral_setup_call_messages_vendor (model : String)
    (client : Option MistralClient) (fnAsync : Bool) (pt : Option String)
    (ms0 : List InputMessage) (tool_types : Option (List String))
    (json_mode : Bool) (base : MistralCallKwargs)
    (jmc_fn : Option String → String) (extract : Bool)
    (r : MistralSetupResult)
    (_h : setup_call model client fnAsync pt ms0 tool_types json_mode base
      jmc_fn extract = .ok r) :
    ∀ m ∈ r.messages,
      (∃ c, m = MistralMessage.assistant c) ∨
      (∃ c, m = MistralMessage.system c) ∨
      (∃ c, m = MistralMessage.tool c) ∨
      (∃ c, m = MistralMessage.user c) := by
  intro m _
  cases m with
  | assistant c => exact Or.inl ⟨c, rfl⟩
  | system c => exact Or.inr (Or.inl ⟨c, rfl⟩)
  | tool c => exact Or.inr (Or.inr (Or.inl ⟨c, rfl⟩))
  | user c => exact Or.inr (Or.inr (Or.inr ⟨c, rfl⟩))

/-- Claim C7: regardless of the `json_mode` and `extract` flags, the
call_kwargs returned by `setup_call` map `model` to the model string passed
in and `messages` to the converted message list returned in the tuple. -/
theorem mistral_setup_call_model_messages (model : String)
    (client : Option MistralClient) (fnAsync : Bool) (pt : Option String)
    (ms0 : List InputMessage) (tool_types : Option (List String))
    (json_mode : Bool) (base : MistralCallKwargs)
    (jmc_fn : Option String → String) (extract : Bool)
    (r : MistralSetupResult)
    (h : setup_call model client fnAsync pt ms0 tool_types json_mode base
      jmc_fn extract = .ok r) :
    r.call_kwargs.model = some model ∧
      r.call_kwargs.messages = some r.messages := by
  simp only [setup_call] at h
  split at h
  · exact absurd h (by simp)
  · cases h
    exact ⟨rfl, rfl⟩

theorem mistral_setup_call_create_fn_witness :
    mistralResultEx.create_or_stream =
      (if false then
        CreateOrStream.asyncOf
          ((some (MistralClient.mk "c" "s" "ca" "sa")).getD defaultMistralClient).chatCompleteAsync
          ((some (MistralClient.mk "c" "s" "ca" "sa")).getD defaultMistralClient).chatStreamAsync
      else
        CreateOrStream.syncOf
          ((some (MistralClient.mk "c" "s" "ca" "sa")).getD defaultMistralClient).chatComplete
          ((some (MistralClient.mk "c" "s" "ca" "sa")).getD defaultMistralClient).chatStream) ∧
    (mistralResultEx.create_or_stream =
        CreateOrStream.asyncOf
          ((some (MistralClient.mk "c" "s" "ca" "sa")).getD defaultMistralClient).chatCompleteAsync
          ((some (MistralClient.mk "c" "s" "ca" "sa")).getD defaultMistralClient).chatStreamAsync ↔
      false = true) :=
  mistral_setup_call_create_fn "m" (some (MistralClient.mk "c" "s" "ca" "sa"))
    false none [.vendor (.user (.str "hi"))] none false {} (fun _ => "") false
    mistralResultEx rfl

theorem mistral_setup_call_messages_vendor_witness :
    (∃ c, MistralMessage.user (MistralContent.str "hi") = MistralMessage.assistant c) ∨
    (∃ c, MistralMessage.user (MistralContent.str "hi") = MistralMessage.system c) ∨
    (∃ c, MistralMessage.user (MistralContent.str "hi") = MistralMessage.tool c) ∨
    (∃ c, MistralMessage.user (MistralContent.str "hi") = MistralMessage.user c) :=
  mistral_setup_call_messages_vendor "m" (some (MistralClient.mk "c" "s" "ca" "sa"))
    false none [.vendor (.user (.str "hi"))] none false {} (fun _ => "") false
    mistralResultEx rfl (MistralMessage.user (MistralContent.str "hi"))
    (by simp [mistralResultEx])

theorem mistral_setup_call_model_messages_witness :
    mistralResultEx.call_kwargs.model = some "m" ∧
      mistralResultEx.call_kwargs.messages = some mistralResultEx.messages :=
  mistral_setup_call_model_messages "m" (some (MistralClient.mk "c" "s" "ca" "sa"))
    false none [.vendor (.user (.str "hi"))] none false {} (fun _ => "") false
    mistralResultEx rfl

/- ### Theorems about the Cohere chunk wrapper -/

/-- Claim C4: a chunk wrapping a text-generation stream chunk has content
equal to the chunk's text and `None` finish_reasons, model, id, usage,
input_tokens and output_tokens; a chunk wrapping a stream-end chunk has empty
content, the one-element finish-reason list, the response's generation id,
the response's billed units as usage, and the billed units' input and output
token counts. -/
theorem cohere_call_response_chunk_fields :
    (∀ t : String,
      (CohereCallResponseChunk.mk (.textGeneration t)).content = t ∧
      (CohereCallResponseChunk.mk (.textGeneration t)).finish_reasons = none ∧
      (CohereCallResponseChunk.mk (.textGeneration t)).model = none ∧
      (CohereCallResponseChunk.mk (.textGeneration t)).id = none ∧
      (CohereCallResponseChunk.mk (.textGeneration t)).usage = none ∧
      (CohereCallResponseChunk.mk (.textGeneration t)).input_tokens = none ∧
      (CohereCallResponseChunk.mk (.textGeneration t)).output_tokens = none) ∧
    (∀ (fr : String) (gid : Option String) (txt : String)
        (bu : ApiMetaBilledUnits),
      (CohereCallResponseChunk.mk
        (.streamEnd fr ⟨gid, txt, some ⟨some bu⟩⟩)).content = "" ∧
      (CohereCallResponseChunk.mk
        (.streamEnd fr ⟨gid, txt, some ⟨some bu⟩⟩)).finish_reasons = some [fr] ∧
      (CohereCallResponseChunk.mk
        (.streamEnd fr ⟨gid, txt, some ⟨some bu⟩⟩)).id = gid ∧
      (CohereCallResponseChunk.mk
        (.streamEnd fr ⟨gid, txt, some ⟨some bu⟩⟩)).usage = some bu ∧
      (CohereCallResponseChunk.mk
        (.streamEnd fr ⟨gid, txt, some ⟨some bu⟩⟩)).input_tokens = bu.input_tokens ∧
      (CohereCallResponseChunk.mk
        (.streamEnd fr ⟨gid, txt, some ⟨some bu⟩⟩)).output_tokens = bu.output_tokens) := by
  constructor
  · intro t
    exact ⟨rfl, rfl, rfl, rfl, rfl, rfl, rfl⟩
  · intro fr gid txt bu
    exact ⟨rfl, rfl, rfl, rfl, rfl, rfl⟩

/- ### Theorems about the prompt-template renderer -/

theorem stringMk_nil_append (t : String) : String.mk [] ++ t = t := by
  cases t
  rfl

theorem stringMk_cons_append (c : Char) (cs : List Char) (t : String) :
    String.mk [c] ++ (String.mk cs ++ t) = String.mk (c :: cs) ++ t := by
  cases t
  rfl

theorem renderAux_lit (lk : String → Option String) (rest : List Char) :
    ∀ ls : List Char, (∀ c ∈ ls, c ≠ '{') →
      renderAux lk false [] (ls ++ rest) =
        (renderAux lk false [] rest).map (fun t => String.mk ls ++ t) := by
  intro ls
  induction ls with
  | nil =>
    intro _
    cases hr : renderAux lk false [] rest <;> simp [hr, stringMk_nil_append]
  | cons c cs ih =>
    intro h
    have hc : c ≠ '{' := h c (List.mem_cons_self c cs)
    have hcs : ∀ x ∈ cs, x ≠ '{' := fun x hx => h x (List.mem_cons_of_mem c hx)
    rw [List.cons_append]
    rw [show renderAux lk false [] (c :: (cs ++ rest)) =
          (renderAux lk false [] (cs ++ rest)).map
            (fun t => String.mk [c] ++ t) by
        simp [renderAux, hc]]
    rw [ih hcs]
    cases hr : renderAux lk false [] rest with
    | none => rfl
    | some t => simp [stringMk_cons_append]

theorem renderAux_ph (lk : String → Option String) (rest : List Char) :
    ∀ ns acc : List Char, (∀ c ∈ ns, c ≠ '}') →
      renderAux lk true acc (ns ++ '}' :: rest) =
        (lk (String.mk (acc.reverse ++ ns))).bind
          (fun v => (renderAux lk false [] rest).map (fun t => v ++ t)) := by
  intro ns
  induction ns with
  | nil =>
    intro acc _
    simp [renderAux]
  | cons c cs ih =>
    intro acc h
    have hc : c ≠ '}' := h c (List.mem_cons_self c cs)
    have hcs : ∀ x ∈ cs, x ≠ '}' := fun x hx => h x (List.mem_cons_of_mem c hx)
    rw [List.cons_append]
    rw [show renderAux lk true acc (c :: (cs ++ '}' :: rest)) =
          renderAux lk true (c :: acc) (cs ++ '}' :: rest) by
        simp [renderAux, hc]]
    rw [ih (c :: acc) hcs]
    simp [List.reverse_cons, List.append_assoc, List.singleton_append]

theorem segWF_lit_no_open (s : List Char) (h : segWF (.lit s) = true) :
    ∀ c ∈ s, c ≠ '{' := by
  simp only [segWF, List.all_eq_true] at h
  intro c hc
  have := h c hc
  simp at this
  exact this.1

theorem segWF_ph_no_close (n : List Char) (h : segWF (.ph n) = true) :
    ∀ c ∈ n, c ≠ '}' := by
  simp only [segWF, List.all_eq_true] at h
  intro c hc
  have := h c hc
  simp at this
  exact this.2

theorem render_segs (lk : String → Option String) :
    ∀ segs : List TmplSeg, segs.all segWF = true →
      renderAux lk false [] (segChars segs) = substSegs lk segs := by
  intro segs
  induction segs with
  | nil =>
    intro _
    rfl
  | cons sg rest ih =>
    intro h
    rw [List.all_cons, Bool.and_eq_true] at h
    obtain ⟨hsg, hrest⟩ := h
    cases sg with
    | lit s =>
      show renderAux lk false [] (s ++ segChars rest) = _
      rw [renderAux_lit lk (segChars rest) s (segWF_lit_no_open s hsg), ih hrest]
      rfl
    | ph n =>
      show renderAux lk false [] ('{' :: (n ++ '}' :: segChars rest)) = _
      rw [show renderAux lk false [] ('{' :: (n ++ '}' :: segChars rest)) =
            renderAux lk true [] (n ++ '}' :: segChars rest) by
          simp [renderAux]]
      rw [renderAux_ph lk (segChars rest) n [] (segWF_ph_no_close n hsg), ih hrest]
      rfl

/-- Claim C5: a function decorated with `@prompt_template(template)` returns,
for every argument assignment, a list of exactly one `BaseMessageParam` with
role `user` whose content is the template with each `{placeholder}` replaced
by the corresponding argument's value, a dotted placeholder such as
`{book.title}` resolving to the named attribute of the argument. -/
theorem prompt_template_user_message (segs : List TmplSeg)
    (env : String → Option PyValue) (h : segs.all segWF = true) :
    prompt_template (String.mk (segChars segs)) env =
      (substSegs (envLookup env) segs).map
        (fun s => [{ role := "user", content := s }]) := by
  unfold prompt_template renderTemplate
  rw [show (String.mk (segChars segs)).toList = segChars segs from rfl]
  rw [render_segs (envLookup env) segs h]

theorem prompt_template_user_message_witness :
    bookSegs.all segWF = true ∧
    prompt_template (String.mk (segChars bookSegs)) bookEnv =
      (substSegs (envLookup bookEnv) bookSegs).map
        (fun s => [{ role := "user", content := s }]) :=
  ⟨by decide, prompt_template_user_message bookSegs bookEnv (by decide)⟩

/- ### Theorems about the Logfire handlers -/

/-- Claim C8: for every call response and non-None span,
`handle_call_response` passes exactly one attribute payload to the span,
recording async as False together with call_params, call_kwargs, model,
provider, prompt_template, the template variables, messages and the raw
response data, with the output augmented by the response's tool calls. -/
theorem logfire_handle_call_response_span (r : LogfireCallResponse) :
    handle_call_response r (some ()) =
      [({ isAsync := false
          call_params := r.call_params
          call_kwargs := r.call_kwargs
          model := r.model
          provider := r.provider
          prompt_template := r.prompt_template
          template_variables := r.fn_args
          messages := r.messages
          response_data := some r.response
          output := { base := get_output r
                      tool_calls := get_tool_calls r } } : SpanData)] := rfl

/-- Claim C9: every Logfire handler, sync or async, performs no span update
and returns nothing when its span argument is None, for every result
value. -/
theorem logfire_handlers_noop_on_none_span (r : LogfireCallResponse)
    (s : LogfireStream) (b : LogfireBaseModelResult) :
    handle_call_response r none = [] ∧
    handle_call_response_async r none = [] ∧
    handle_stream s none = [] ∧
    handle_stream_async s none = [] ∧
    handle_base_model b none = [] ∧
    handle_base_model_async b none = [] := by
  refine ⟨rfl, rfl, rfl, rfl, ?_, ?_⟩ <;> cases b <;> rfl

/-- Claim C10: each sync/async pair of Logfire handlers sets the same span
attributes except for the async entry, which is False for the sync handler
and True for the async handler. -/
theorem logfire_sync_async_pairs (r : LogfireCallResponse)
    (s : LogfireStream) (b : LogfireBaseModelResult) (span : Option Unit) :
    handle_call_response r span =
      (handle_call_response_async r span).map
        (fun d => { d with isAsync := false }) ∧
    handle_call_response_async r span =
      (handle_call_response r span).map
        (fun d => { d with isAsync := true }) ∧
    handle_stream s span =
      (handle_stream_async s span).map
        (fun d => { d with isAsync := false }) ∧
    handle_stream_async s span =
      (handle_stream s span).map
        (fun d => { d with isAsync := true }) ∧
    handle_base_model b span =
      (handle_base_model_async b span).map
        (fun d => { d with isAsync := false }) ∧
    handle_base_model_async b span =
      (handle_base_model b span).map
        (fun d => { d with isAsync := true }) := by
  cases span with
  | none => cases b <;> exact ⟨rfl, rfl, rfl, rfl, rfl, rfl⟩
  | some u => cases b <;> exact ⟨rfl, rfl, rfl, rfl, rfl, rfl⟩
